/-
  Verification of the listing-lens response-normalization pipeline.

  The embedding models the JavaScript sources over `List Char` (a JS string as
  its sequence of characters) and `ℚ` (JS finite numbers; every number produced
  by `JSON.parse` or by the pipeline is finite).  JS values reachable in the
  pipeline are JSON values, so `Json` below doubles as the JS-value type; the
  absent/`undefined` case is carried by `Option Json` at property-access sites.

  Sources embedded:
  - `netlify/functions/analyzeListing.js` : `clamp`, `extractJson`, the handler's
    post-gateway block (JSON extraction, `!report` check, the `cleaned`
    normalization object, the `questions_to_ask` backfill);
  - the multi-image handler variant (same `extractJson`/`cleaned` block, plus the
    `imagesBase64` validation loop run before the provider call);
  - `functions/index.js` (Firebase callable variant): image selection before the
    provider call, and the post-gateway fence-strip + `JSON.parse` return.
-/
import Mathlib

namespace ListingLens

/-- A JSON value (also the JS values reachable in the pipeline).  Strings are
`List Char`; numbers are exact rationals (`JSON.parse` yields only finite
numbers, and every number the pipeline computes from them is finite).  Objects
keep their members in parse order; duplicate keys may occur, and property
lookup takes the last occurrence, as `JSON.parse` does. -/
inductive Json where
  | null
  | bool (b : Bool)
  | num (q : ℚ)
  | str (s : List Char)
  | arr (elems : List Json)
  | obj (members : List (List Char × Json))
deriving Repr

/-! ### JSON text parsing: a model of `JSON.parse`

Strict RFC 8259 grammar: whitespace is space/tab/LF/CR; numbers forbid leading
zeros, a bare leading `.`, and a trailing `.`; strings require escapes for `"`
and `\` and reject raw control characters.  `\uXXXX` escapes are mapped through
`Char.ofNat` (a lone surrogate, not a Unicode scalar, falls to `Char.ofNat`'s
default; no claim depends on such strings). -/

def jsonWs (c : Char) : Bool := [' ', '\t', '\n', '\r'].contains c

def digitChar (c : Char) : Bool := '0' ≤ c && c ≤ '9'

def skipWs : List Char → List Char
  | [] => []
  | c :: r => if jsonWs c then skipWs r else c :: r

def spanDigits : List Char → List Char × List Char
  | [] => ([], [])
  | c :: r =>
    if digitChar c then
      let (ds, rest) := spanDigits r
      (c :: ds, rest)
    else ([], c :: r)

def digitsToNat (ds : List Char) : Nat :=
  ds.foldl (fun a c => a * 10 + (c.toNat - '0'.toNat)) 0

/-- Strip an optional leading sign, returned as `+1`/`-1`. -/
def signSplit : List Char → Int × List Char
  | '-' :: tail => (-1, tail)
  | '+' :: tail => (1, tail)
  | other => (1, other)

def hexDigitVal (c : Char) : Option Nat :=
  let n := c.toNat
  if 48 ≤ n ∧ n ≤ 57 then some (n - 48)
  else if 97 ≤ n ∧ n ≤ 102 then some (n - 87)
  else if 65 ≤ n ∧ n ≤ 70 then some (n - 55)
  else none

def escChar : Char → Option Char
  | 'n' => some '\n'
  | 't' => some '\t'
  | 'r' => some '\r'
  | 'b' => some (Char.ofNat 8)
  | 'f' => some (Char.ofNat 12)
  | '/' => some '/'
  | '\\' => some '\\'
  | '"' => some '"'
  | _ => none

/-- String body after the opening quote; returns the decoded characters and the
input after the closing quote. -/
def parseStringBody (acc : List Char) : List Char → Option (List Char × List Char)
  | [] => none
  | '"' :: r => some (acc.reverse, r)
  | '\\' :: 'u' :: a :: b :: c :: d :: r =>
    match hexDigitVal a, hexDigitVal b, hexDigitVal c, hexDigitVal d with
    | some va, some vb, some vc, some vd =>
      parseStringBody (Char.ofNat (((va * 16 + vb) * 16 + vc) * 16 + vd) :: acc) r
    | _, _, _, _ => none
  | '\\' :: e :: r =>
    match escChar e with
    | some ch => parseStringBody (ch :: acc) r
    | none => none
  | c :: r => if c.toNat < 32 then none else parseStringBody (c :: acc) r

/-- JSON number literal: `-? (0 | [1-9][0-9]*) (. [0-9]+)? ([eE][+-]?[0-9]+)?`,
with its exact rational value. -/
def parseNumber (cs : List Char) : Option (ℚ × List Char) :=
  let neg : Bool := cs.head? == some '-'
  let cs1 : List Char := if neg then cs.tail else cs
  let (intDs, cs2) := spanDigits cs1
  match intDs with
  | [] => none
  | d0 :: drest =>
    if d0 = '0' ∧ drest ≠ [] then none
    else
      let (fracDs, cs3) : List Char × List Char := match cs2 with
        | '.' :: r => spanDigits r
        | _ => ([], cs2)
      let fracOk : Bool := match cs2 with
        | '.' :: _ => !fracDs.isEmpty
        | _ => true
      if !fracOk then none
      else
        let expPart : Option (Int × List Char) := match cs3 with
          | 'e' :: r | 'E' :: r =>
            let sr := signSplit r
            let ds := spanDigits sr.2
            if ds.1.isEmpty then none else some (sr.1 * (digitsToNat ds.1 : Int), ds.2)
          | _ => some (0, cs3)
        match expPart with
        | none => none
        | some (ex, cs4) =>
          let mantissa : Int := (digitsToNat (intDs ++ fracDs) : Int)
          let signed : Int := if neg then -mantissa else mantissa
          let scale : Int := ex - (fracDs.length : Int)
          let q : ℚ :=
            if 0 ≤ scale then mkRat (signed * (10 : Int) ^ scale.toNat) 1
            else mkRat signed ((10 : Nat) ^ (-scale).toNat)
          some (q, cs4)

mutual

/-- One JSON value, fuel-bounded (fuel `length + 1` always suffices). -/
def parseValue (fuel : Nat) (cs : List Char) : Option (Json × List Char) :=
  match fuel with
  | 0 => none
  | fuel + 1 =>
    match skipWs cs with
    | 'n' :: 'u' :: 'l' :: 'l' :: r => some (.null, r)
    | 't' :: 'r' :: 'u' :: 'e' :: r => some (.bool true, r)
    | 'f' :: 'a' :: 'l' :: 's' :: 'e' :: r => some (.bool false, r)
    | '"' :: r =>
      match parseStringBody [] r with
      | some (s, r') => some (.str s, r')
      | none => none
    | '[' :: r =>
      match skipWs r with
      | ']' :: r' => some (.arr [], r')
      | other =>
        match parseElements fuel other with
        | some (es, r') => some (.arr es, r')
        | none => none
    | '{' :: r =>
      match skipWs r with
      | '}' :: r' => some (.obj [], r')
      | other =>
        match parseMembers fuel other with
        | some (ms, r') => some (.obj ms, r')
        | none => none
    | c :: rest =>
      if c = '-' ∨ digitChar c then
        match parseNumber (c :: rest) with
        | some (q, r') => some (.num q, r')
        | none => none
      else none
    | [] => none

/-- One-or-more comma-separated array elements, then the closing `]`. -/
def parseElements (fuel : Nat) (cs : List Char) : Option (List Json × List Char) :=
  match fuel with
  | 0 => none
  | fuel + 1 =>
    match parseValue fuel cs with
    | none => none
    | some (v, r) =>
      match skipWs r with
      | ',' :: r' =>
        match parseElements fuel r' with
        | some (vs, r'') => some (v :: vs, r'')
        | none => none
      | ']' :: r' => some ([v], r')
      | _ => none

/-- One-or-more `"key": value` members, then the closing `}`. -/
def parseMembers (fuel : Nat) (cs : List Char) :
    Option (List (List Char × Json) × List Char) :=
  match fuel with
  | 0 => none
  | fuel + 1 =>
    match skipWs cs with
    | '"' :: r =>
      match parseStringBody [] r with
      | none => none
      | some (key, r1) =>
        match skipWs r1 with
        | ':' :: r2 =>
          match parseValue fuel r2 with
          | none => none
          | some (v, r3) =>
            match skipWs r3 with
            | ',' :: r4 =>
              match parseMembers fuel r4 with
              | some (ms, r5) => some ((key, v) :: ms, r5)
              | none => none
            | '}' :: r4 => some ([(key, v)], r4)
            | _ => none
        | _ => none
    | _ => none

end

/-- Model of `JSON.parse` on a whole text: one value, then only trailing whitespace. -/
def parseJson (cs : List Char) : Option Json :=
  match parseValue (cs.length + 1) cs with
  | some (v, rest) => if skipWs rest = [] then some v else none
  | none => none

/-! ### Decidable equality for `Json` (nested inductive, so written by hand) -/

mutual

def Json.decEq : (a b : Json) → Decidable (a = b)
  | .null, .null => isTrue rfl
  | .bool x, .bool y => if h : x = y then isTrue (by rw [h]) else isFalse (by simp [h])
  | .num x, .num y => if h : x = y then isTrue (by rw [h]) else isFalse (by simp [h])
  | .str x, .str y => if h : x = y then isTrue (by rw [h]) else isFalse (by simp [h])
  | .arr x, .arr y =>
    match Json.decEqList x y with
    | isTrue h => isTrue (by rw [h])
    | isFalse h => isFalse (by simp [h])
  | .obj x, .obj y =>
    match Json.decEqMembers x y with
    | isTrue h => isTrue (by rw [h])
    | isFalse h => isFalse (by simp [h])
  | .null, .bool _ => isFalse (fun h => Json.noConfusion h)
  | .null, .num _ => isFalse (fun h => Json.noConfusion h)
  | .null, .str _ => isFalse (fun h => Json.noConfusion h)
  | .null, .arr _ => isFalse (fun h => Json.noConfusion h)
  | .null, .obj _ => isFalse (fun h => Json.noConfusion h)
  | .bool _, .null => isFalse (fun h => Json.noConfusion h)
  | .bool _, .num _ => isFalse (fun h => Json.noConfusion h)
  | .bool _, .str _ => isFalse (fun h => Json.noConfusion h)
  | .bool _, .arr _ => isFalse (fun h => Json.noConfusion h)
  | .bool _, .obj _ => isFalse (fun h => Json.noConfusion h)
  | .num _, .null => isFalse (fun h => Json.noConfusion h)
  | .num _, .bool _ => isFalse (fun h => Json.noConfusion h)
  | .num _, .str _ => isFalse (fun h => Json.noConfusion h)
  | .num _, .arr _ => isFalse (fun h => Json.noConfusion h)
  | .num _, .obj _ => isFalse (fun h => Json.noConfusion h)
  | .str _, .null => isFalse (fun h => Json.noConfusion h)
  | .str _, .bool _ => isFalse (fun h => Json.noConfusion h)
  | .str _, .num _ => isFalse (fun h => Json.noConfusion h)
  | .str _, .arr _ => isFalse (fun h => Json.noConfusion h)
  | .str _, .obj _ => isFalse (fun h => Json.noConfusion h)
  | .arr _, .null => isFalse (fun h => Json.noConfusion h)
  | .arr _, .bool _ => isFalse (fun h => Json.noConfusion h)
  | .arr _, .num _ => isFalse (fun h => Json.noConfusion h)
  | .arr _, .str _ => isFalse (fun h => Json.noConfusion h)
  | .arr _, .obj _ => isFalse (fun h => Json.noConfusion h)
  | .obj _, .null => isFalse (fun h => Json.noConfusion h)
  | .obj _, .bool _ => isFalse (fun h => Json.noConfusion h)
  | .obj _, .num _ => isFalse (fun h => Json.noConfusion h)
  | .obj _, .str _ => isFalse (fun h => Json.noConfusion h)
  | .obj _, .arr _ => isFalse (fun h => Json.noConfusion h)

def Json.decEqList : (a b : List Json) → Decidable (a = b)
  | [], [] => isTrue rfl
  | [], _ :: _ => isFalse (fun h => List.noConfusion h)
  | _ :: _, [] => isFalse (fun h => List.noConfusion h)
  | a :: as, b :: bs =>
    match Json.decEq a b, Json.decEqList as bs with
    | isTrue h1, isTrue h2 => isTrue (by rw [h1, h2])
    | isFalse h1, _ => isFalse (by simp [h1])
    | _, isFalse h2 => isFalse (by simp [h2])

def Json.decEqMembers : (a b : List (List Char × Json)) → Decidable (a = b)
  | [], [] => isTrue rfl
  | [], _ :: _ => isFalse (fun h => List.noConfusion h)
  | _ :: _, [] => isFalse (fun h => List.noConfusion h)
  | (k, v) :: as, (k', v') :: bs =>
    if hk : k = k' then
      match Json.decEq v v', Json.decEqMembers as bs with
      | isTrue h1, isTrue h2 => isTrue (by rw [hk, h1, h2])
      | isFalse h1, _ => isFalse (by simp [h1])
      | _, isFalse h2 => isFalse (by simp [h2])
    else isFalse (by simp [hk])

end

instance : DecidableEq Json := Json.decEq

/-! ### JS value semantics used by the handlers -/

/-- JS truthiness of a JSON value.  `null`, `false`, `0`, and `""` are falsy;
every array and object is truthy.  (`NaN`, the remaining falsy number, cannot
occur in a `Json.num`.) -/
def jsTruthy : Json → Bool
  | .null => false
  | .bool b => b
  | .num q => decide (q ≠ 0)
  | .str s => !s.isEmpty
  | .arr _ => true
  | .obj _ => true

/-- Truthiness of a possibly-`undefined` value (`none` = `undefined`, falsy). -/
def jsTruthyO : Option Json → Bool
  | none => false
  | some v => jsTruthy v

/-- Is the value a JSON object (`{...}`)? -/
def Json.isObj : Json → Bool
  | .obj _ => true
  | _ => false

/-- Property lookup in an object's member list: the LAST member with the key
wins, matching how `JSON.parse` assigns duplicate keys one after another. -/
def lookupMember (k : List Char) : List (List Char × Json) → Option Json
  | [] => none
  | (k', v) :: rest =>
    match lookupMember k rest with
    | some r => some r
    | none => if k' = k then some v else none

/-- Property access `v[k]` for a named (non-index) key: `undefined` (`none`) unless `v` is an
object with that key.  Named properties of primitives and arrays that the
pipeline reads (`vehicle_title`, `lens_score`, …) are all `undefined`. -/
def jsGet : Json → List Char → Option Json
  | .obj ms, k => lookupMember k ms
  | _, _ => none

/-- A JS number as produced by `Number(...)`: `NaN`, an infinity, or a finite
value (exact rational in this model). -/
inductive JsNum where
  | nan
  | posInf
  | negInf
  | finite (q : ℚ)
deriving DecidableEq, Repr

/-- The value `signed × 10^scale` as an exact rational (all arithmetic kept in `Int`/`Nat`
so the kernel can evaluate it). -/
def scaledRat (signed : Int) (scale : Int) : ℚ :=
  if 0 ≤ scale then mkRat (signed * (10 : Int) ^ scale.toNat) 1
  else mkRat signed ((10 : Nat) ^ (-scale).toNat)

/-- Characters removed by JS `trim` / ignored around `Number()` input:
WhiteSpace (tab, VT, FF, space, NBSP, BOM) and LineTerminator. -/
def jsSpace (c : Char) : Bool :=
  c == ' ' || (9 ≤ c.toNat && c.toNat ≤ 13) || c.toNat == 160 ||
    c.toNat == 8232 || c.toNat == 8233 || c.toNat == 65279

def jsTrim (l : List Char) : List Char :=
  ((l.dropWhile jsSpace).reverse.dropWhile jsSpace).reverse

def radixValAux (base : Nat) (acc : Nat) : List Char → Option Nat
  | [] => some acc
  | c :: r =>
    match hexDigitVal c with
    | some v => if v < base then radixValAux base (acc * base + v) r else none
    | none => none

/-- Value of a non-empty digit string in the given radix (2, 8, or 16). -/
def radixVal (base : Nat) (ds : List Char) : Option Nat :=
  match ds with
  | [] => none
  | _ => radixValAux base 0 ds

/-- The `StrDecimalLiteral` exponent tail and final value: the whole rest of the
input must be consumed. -/
def strDecimalTail (neg : Bool) (mantDs : List Char) (fracLen : Nat) :
    List Char → Option ℚ
  | [] =>
    let m : Int := (digitsToNat mantDs : Int)
    some (scaledRat (if neg then -m else m) (0 - (fracLen : Int)))
  | 'e' :: r | 'E' :: r =>
    let sr := signSplit r
    let ds := spanDigits sr.2
    if ds.1.isEmpty ∨ ds.2 ≠ [] then none
    else
      let m : Int := (digitsToNat mantDs : Int)
      some (scaledRat (if neg then -m else m) (sr.1 * (digitsToNat ds.1 : Int) - (fracLen : Int)))
  | _ => none

/-- Unsigned `StrDecimalLiteral` (JS `Number()` grammar, laxer than JSON:
`"5."`, `".5"`, leading zeros are allowed). -/
def strDecimalVal (neg : Bool) (body : List Char) : Option ℚ :=
  let (intDs, r1) := spanDigits body
  match r1 with
  | '.' :: r2 =>
    let (fracDs, r3) := spanDigits r2
    if intDs.isEmpty ∧ fracDs.isEmpty then none
    else strDecimalTail neg (intDs ++ fracDs) fracDs.length r3
  | _ => if intDs.isEmpty then none else strDecimalTail neg intDs 0 r1

/-- Model of `Number(string)`: trim; empty → 0; unsigned hex/octal/binary literals;
otherwise an optionally signed decimal literal or `Infinity`; anything else is
`NaN`. -/
def strToNumber (s : List Char) : JsNum :=
  match jsTrim s with
  | [] => .finite 0
  | '0' :: 'x' :: r | '0' :: 'X' :: r =>
    match radixVal 16 r with
    | some n => .finite (mkRat (n : Int) 1)
    | none => .nan
  | '0' :: 'o' :: r | '0' :: 'O' :: r =>
    match radixVal 8 r with
    | some n => .finite (mkRat (n : Int) 1)
    | none => .nan
  | '0' :: 'b' :: r | '0' :: 'B' :: r =>
    match radixVal 2 r with
    | some n => .finite (mkRat (n : Int) 1)
    | none => .nan
  | t =>
    let (neg, body) : Bool × List Char := match t with
      | '+' :: r => (false, r)
      | '-' :: r => (true, r)
      | _ => (false, t)
    if body = "Infinity".toList then (if neg then .negInf else .posInf)
    else
      match strDecimalVal neg body with
      | some q => .finite q
      | none => .nan

/-- Decimal expansion of `num/den` (`num < den`) to at most `fuel` digits,
stopping at remainder 0.  With `fuel := den` this is exact whenever the
expansion terminates (denominator `2^a·5^b`) — which covers every number the
pipeline can produce from JSON input; for other denominators JS would print a
17-significant-digit float, which this model truncates instead (no claim
depends on such values). -/
def fracDigits : Nat → Nat → Nat → List Char
  | 0, _, _ => []
  | _, 0, _ => []
  | fuel + 1, num, den =>
    Char.ofNat ('0'.toNat + num * 10 / den) :: fracDigits fuel (num * 10 % den) den

/-- JS number-to-string for the values the pipeline can hold.  Matches JS on
every finite value with a terminating decimal expansion that JS prints in
positional notation (JS switches to exponent form only below `1e-7` or at
`1e21` and above, which the pipeline never produces from clamped scores and
which no claim exercises). -/
def ratToChars (q : ℚ) : List Char :=
  if q = 0 then ['0']
  else
    let sign : List Char := if q.num < 0 then ['-'] else []
    let n := q.num.natAbs
    let d := q.den
    let ip := Nat.toDigits 10 (n / d)
    let fr := fracDigits d (n % d) d
    sign ++ (if fr.isEmpty then ip else ip ++ '.' :: fr)

mutual

/-- Model of `String(v)` / `v.toString()` on the pipeline's values: `String(null)` is
`"null"`, arrays join their elements with `","`, plain objects print as
`"[object Object]"`. -/
def jsStringOf : Json → List Char
  | .str s => s
  | .num q => ratToChars q
  | .bool b => (cond b "true" "false").toList
  | .null => "null".toList
  | .arr l => arrJoin l
  | .obj _ => "[object Object]".toList

/-- Model of `Array.prototype.toString` = `join(",")`; a `null` (or `undefined`)
element joins as the empty string. -/
def arrJoin : List Json → List Char
  | [] => []
  | [.null] => []
  | [e] => jsStringOf e
  | .null :: rest => ',' :: arrJoin rest
  | e :: rest => jsStringOf e ++ ',' :: arrJoin rest

end

/-- Model of `Number(v)`: `ToNumber` after `ToPrimitive`.  An array converts through its
string form; a plain object converts through `"[object Object]"`, i.e. `NaN`. -/
def jsToNumber : Json → JsNum
  | .null => .finite 0
  | .bool b => .finite (if b then 1 else 0)
  | .num q => .finite q
  | .str s => strToNumber s
  | .arr l => strToNumber (arrJoin l)
  | .obj _ => .nan

/-- Model of `Number(v)` where `v` may be `undefined` (`Number(undefined)` is `NaN`). -/
def jsToNumberO : Option Json → JsNum
  | none => .nan
  | some v => jsToNumber v

/-! ### `netlify/functions/analyzeListing.js` -/

/-- Source function `clamp(n, min, max) = Math.max(min, Math.min(max, n))` on finite numbers. -/
def clamp (n lo hi : ℚ) : ℚ := max lo (min hi n)

/-- Model of `text.indexOf(c)` (`none` for `-1`). -/
def firstIdxOf (c : Char) : List Char → Option Nat
  | [] => none
  | a :: l => if a = c then some 0 else (firstIdxOf c l).map (· + 1)

/-- Model of `text.lastIndexOf(c)` (`none` for `-1`). -/
def lastIdxOf (c : Char) (l : List Char) : Option Nat :=
  (firstIdxOf c l.reverse).map (fun i => l.length - 1 - i)

/-- Source function `extractJson(text)`: empty/falsy text → `null`; else direct `JSON.parse`;
else parse `text.slice(start, end + 1)` for the first `{` and last `}` when
`end > start`.  `none` stands for the JS `null` result. -/
def extractJson (text : List Char) : Option Json :=
  if text.isEmpty then none
  else
    match parseJson text with
    | some v => some v
    | none =>
      match firstIdxOf '{' text, lastIdxOf '}' text with
      | some st, some en =>
        if st < en then parseJson ((text.drop st).take (en + 1 - st)) else none
      | _, _ => none

/-- The `cleaned` record the handler returns as `{ data: cleaned }`. -/
@[ext]
structure ListingReport where
  vehicle_title : List Char
  lens_score : ℚ
  summary : List Char
  market_value_estimate : List Char
  red_flags : List (List Char)
  questions_to_ask : List (List Char)
deriving DecidableEq, Repr

/-- The expression `x || dflt` for a string default `dflt`: the left operand when truthy,
else the default. -/
def jsOrStr (o : Option Json) (dflt : List Char) : Json :=
  match o with
  | some v => if jsTruthy v then v else .str dflt
  | none => .str dflt

/-- The expression `(report[key] || dflt).toString().slice(0, maxLen)` with a string default:
the shape shared by `vehicle_title`, `summary`, and `market_value_estimate`. -/
def textField (report : Json) (key dflt : List Char) (maxLen : Nat) : List Char :=
  (jsStringOf (jsOrStr (jsGet report key) dflt)).take maxLen

/-- The expression `Number(x) || 50`: `NaN` and `0` are falsy, so both fall to `50`. -/
def numOrFifty : JsNum → JsNum
  | .nan => .finite 50
  | .finite q => if q = 0 then .finite 50 else .finite q
  | n => n

/-- The call `clamp(·, 0, 100)` on the result of `numOrFifty` (never `NaN`):
`Math.min(100, ∞) = 100` and `Math.max(0, -∞) = 0`.  The `.nan` case is
unreachable after `numOrFifty` and is given the value `50` for totality. -/
def clampedScore : JsNum → ℚ
  | .finite q => clamp q 0 100
  | .posInf => 100
  | .negInf => 0
  | .nan => 50

/-- The expression `clamp(Number(report.lens_score) || 50, 0, 100)`. -/
def lensScore (v : Option Json) : ℚ := clampedScore (numOrFifty (jsToNumberO v))

/-- The expression `Array.isArray(report[key]) ? report[key].map(String).slice(0, 8) : []`. -/
def stringArray8 (report : Json) (key : List Char) : List (List Char) :=
  match jsGet report key with
  | some (.arr l) => (l.map jsStringOf).take 8
  | _ => []

/-- The three canned due-diligence questions, in source order. -/
def cannedQuestions : List (List Char) :=
  ["Can you confirm the service history and provide receipts/logbook photos?".toList,
   "Any accidents, repairs, paintwork, flood/hail damage, or insurance claims?".toList,
   "Is there finance owing, and can we do a PPSR check / clear title confirmation?".toList]

/-- The list `questions_to_ask` before the backfill step. -/
def questionsBase (report : Json) : List (List Char) :=
  stringArray8 report "questions_to_ask".toList

/-- The normalization block: the `cleaned` object literal followed by the
`questions_to_ask.length < 3` backfill (`concat(...canned).slice(0, 8)`). -/
def coerce (report : Json) : ListingReport :=
  let base := questionsBase report
  { vehicle_title := textField report "vehicle_title".toList "Unknown Vehicle".toList 120
    lens_score := lensScore (jsGet report "lens_score".toList)
    summary := textField report "summary".toList "No summary returned.".toList 500
    market_value_estimate := textField report "market_value_estimate".toList "Unknown".toList 80
    red_flags := stringArray8 report "red_flags".toList
    questions_to_ask := if base.length < 3 then (base ++ cannedQuestions).take 8 else base }

/-- Outcome of the post-gateway block: the 502 `ExtractionFailure` response
with its `raw` preview, or the 200 `{ data: cleaned }` response. -/
inductive NormOutcome where
  | extractionFailure (preview : List Char)
  | report (r : ListingReport)
deriving DecidableEq, Repr

/-- The block `const report = extractJson(outText); if (!report) ... 502 { raw:
outText.slice(0, 2000) } ... else 200 { data: cleaned }`. -/
def normalize (raw : List Char) : NormOutcome :=
  match extractJson raw with
  | some rpt =>
    if jsTruthy rpt then .report (coerce rpt) else .extractionFailure (raw.take 2000)
  | none => .extractionFailure (raw.take 2000)

/-! ### Exception-aware replay of the normalization block

The JS engine would throw at exactly two spots if the guards failed: a property
read on `null`/`undefined`, and `.toString()` on `null`/`undefined`.  The
checked variants make those throw-points explicit (`none` = a thrown
`TypeError`), so that "`coerce` never fails" is a theorem, not a typing
artifact. -/

/-- Access `report[key]` that models the throw on a `null` base object
(`undefined` cannot flow in: the handler only passes parsed JSON values). -/
def jsGetChecked (report : Json) (k : List Char) : Option (Option Json) :=
  match report with
  | .null => none
  | .obj ms => some (lookupMember k ms)
  | _ => some none

/-- Call `v.toString()`, throwing (`none`) on `null`. -/
def toStringChecked : Json → Option (List Char)
  | .null => none
  | v => some (jsStringOf v)

/-- The expression `(report[key] || dflt).toString().slice(0, maxLen)` with both throw-points
kept. -/
def textFieldChecked (report : Json) (key dflt : List Char) (maxLen : Nat) :
    Option (List Char) := do
  let f ← jsGetChecked report key
  let s ← toStringChecked (jsOrStr f dflt)
  pure (s.take maxLen)

/-- Variant of `stringArray8` with the property-read throw-point kept (`Array.isArray`,
`map(String)`, and `slice` never throw). -/
def stringArray8Checked (report : Json) (key : List Char) :
    Option (List (List Char)) := do
  let f ← jsGetChecked report key
  pure (match f with
    | some (.arr l) => (l.map jsStringOf).take 8
    | _ => [])

/-- The whole `cleaned` block with every throw-point kept: `none` means the
block would have raised and the handler would have answered 500. -/
def coerceChecked (report : Json) : Option ListingReport := do
  let vt ← textFieldChecked report "vehicle_title".toList "Unknown Vehicle".toList 120
  let ls ← jsGetChecked report "lens_score".toList
  let sm ← textFieldChecked report "summary".toList "No summary returned.".toList 500
  let mv ← textFieldChecked report "market_value_estimate".toList "Unknown".toList 80
  let rf ← stringArray8Checked report "red_flags".toList
  let qs ← stringArray8Checked report "questions_to_ask".toList
  pure
    { vehicle_title := vt
      lens_score := clampedScore (numOrFifty (jsToNumberO ls))
      summary := sm
      market_value_estimate := mv
      red_flags := rf
      questions_to_ask := if qs.length < 3 then (qs ++ cannedQuestions).take 8 else qs }

/-- Post-gateway outcomes with the would-be coercion failure kept separate. -/
inductive CheckedOutcome where
  | extractionFailure (preview : List Char)
  | coercionFailure
  | report (r : ListingReport)
deriving DecidableEq, Repr

/-- The post-gateway block with the coercion throw-point kept. -/
def normalizeChecked (raw : List Char) : CheckedOutcome :=
  match extractJson raw with
  | some rpt =>
    if jsTruthy rpt then
      match coerceChecked rpt with
      | some r => .report r
      | none => .coercionFailure
    else .extractionFailure (raw.take 2000)
  | none => .extractionFailure (raw.take 2000)

/-- The `cleaned` record as the JS object it is, for re-feeding to `coerce`. -/
def toJsonReport (r : ListingReport) : Json :=
  .obj
    [("vehicle_title".toList, .str r.vehicle_title),
     ("lens_score".toList, .num r.lens_score),
     ("summary".toList, .str r.summary),
     ("market_value_estimate".toList, .str r.market_value_estimate),
     ("red_flags".toList, .arr (r.red_flags.map .str)),
     ("questions_to_ask".toList, .arr (r.questions_to_ask.map .str))]

/-- The report `coerce` builds when every field access yields `undefined`. -/
def defaultReport : ListingReport :=
  { vehicle_title := "Unknown Vehicle".toList
    lens_score := 50
    summary := "No summary returned.".toList
    market_value_estimate := "Unknown".toList
    red_flags := []
    questions_to_ask := cannedQuestions }

/-! ### The multi-image handler variant: pre-gateway validation -/

/-- What the multi-image handler does with a decoded `imagesBase64` value
before any provider call: an early error response, or the provider call
carrying the images. -/
inductive MultiStep where
  | reject (status : Nat) (error : List Char)
  | callGateway (images : List Json)
deriving DecidableEq, Repr

/-- The per-image loop: `typeof img !== "string"` → 400, then
`img.length > 12_000_000` → 413, first offender wins. -/
def firstImageError : List Json → Option (Nat × List Char)
  | [] => none
  | .str s :: rest =>
    if s.length > 12000000 then some (413, "One of the images is too large.".toList)
    else firstImageError rest
  | _ :: _ => some (400, "All images must be base64 strings".toList)

/-- The `--- VALIDATION ---` block of the multi-image handler, applied to
`payload.imagesBase64` (`none` = the key is absent). -/
def multiValidate (imagesBase64 : Option Json) : MultiStep :=
  match imagesBase64 with
  | some (.arr imgs) =>
    if imgs.length = 0 then .reject 400 "imagesBase64 must be a non-empty array".toList
    else if imgs.length > 4 then .reject 400 "Maximum 4 images allowed".toList
    else
      match firstImageError imgs with
      | some (st, e) => .reject st e
      | none => .callGateway imgs
  | _ => .reject 400 "imagesBase64 must be a non-empty array".toList

/-! ### `functions/index.js`: the Firebase callable variant -/

/-- What the Firebase handler does before its provider call: reject only when
both `request.data.images` and `request.data.imageBase64` are falsy; a
`forverEach` over a truthy non-array `images` would raise a `TypeError` inside
the `try` (surfaced as an internal error), still before any provider call. -/
inductive FirebaseStep where
  | reject (code msg : List Char)
  | typeErrorBeforeCall
  | callGateway (images : List Json)
deriving DecidableEq, Repr

/-- Image selection in the Firebase handler: `request.data.images` if truthy,
else `[request.data.imageBase64]` if that is truthy, else
`HttpsError('invalid-argument', 'Image data missing.')`.  No length, type, or
size check is performed on the selected images. -/
def firebasePreGateway (data : Json) : FirebaseStep :=
  if jsTruthyO (jsGet data "images".toList) then
    match jsGet data "images".toList with
    | some (.arr l) => .callGateway l
    | _ => .typeErrorBeforeCall
  else if jsTruthyO (jsGet data "imageBase64".toList) then
    match jsGet data "imageBase64".toList with
    | some v => .callGateway [v]
    | none => .typeErrorBeforeCall
  else .reject "invalid-argument".toList "Image data missing.".toList

/-- Remove every occurrence of a pattern, fuel-bounded (each step consumes at
least one character, so fuel `l.length` in the wrapper below is enough). -/
def removeAllAux (pat : List Char) : Nat → List Char → List Char
  | 0, l => l
  | _, [] => []
  | fuel + 1, c :: r =>
    if pat.length ≠ 0 ∧ pat.isPrefixOf (c :: r) then
      removeAllAux pat fuel ((c :: r).drop pat.length)
    else c :: removeAllAux pat fuel r

/-- Remove every occurrence of a pattern (the `replace(/pat/g, "")` calls). -/
def removeAll (pat l : List Char) : List Char := removeAllAux pat l.length l

/-- Post-gateway outcome of the Firebase handler. -/
inductive FirebaseOutcome where
  | success (data : Json)
  | internalError
deriving DecidableEq, Repr

/-- The chain `text.replace(/```json/g, '').replace(/```/g, '').trim()`, then
`JSON.parse`; a parse error is caught and rethrown as an internal error; on
success the parsed value is returned as `{ success: true, data: ... }` with no
validation or normalization at all. -/
def firebaseNormalize (text : List Char) : FirebaseOutcome :=
  let jsonStr := jsTrim (removeAll "```".toList (removeAll "```json".toList text))
  match parseJson jsonStr with
  | some v => .success v
  | none => .internalError

/-! ## Helper lemmas -/

theorem jsStringOf_str (s : List Char) : jsStringOf (.str s) = s := rfl

theorem parseJson_nil : parseJson ([] : List Char) = none := rfl

theorem coerce_vehicle_title (x : Json) :
    (coerce x).vehicle_title =
      textField x "vehicle_title".toList "Unknown Vehicle".toList 120 := rfl

theorem coerce_lens_score (x : Json) :
    (coerce x).lens_score = lensScore (jsGet x "lens_score".toList) := rfl

theorem coerce_summary (x : Json) :
    (coerce x).summary = textField x "summary".toList "No summary returned.".toList 500 := rfl

theorem coerce_market (x : Json) :
    (coerce x).market_value_estimate =
      textField x "market_value_estimate".toList "Unknown".toList 80 := rfl

theorem coerce_red_flags (x : Json) :
    (coerce x).red_flags = stringArray8 x "red_flags".toList := rfl

theorem coerce_questions (x : Json) :
    (coerce x).questions_to_ask =
      if (questionsBase x).length < 3 then ((questionsBase x) ++ cannedQuestions).take 8
      else questionsBase x := rfl

theorem textField_length_le (x : Json) (k d : List Char) (n : Nat) :
    (textField x k d n).length ≤ n := by
  simp only [textField, List.length_take]
  exact Nat.min_le_left _ _

theorem stringArray8_length_le (x : Json) (k : List Char) :
    (stringArray8 x k).length ≤ 8 := by
  unfold stringArray8
  split
  · simp only [List.length_take]
    exact Nat.min_le_left _ _
  · simp

theorem cannedQuestions_length : cannedQuestions.length = 3 := rfl

theorem coerce_questions_length (x : Json) :
    3 ≤ (coerce x).questions_to_ask.length ∧ (coerce x).questions_to_ask.length ≤ 8 := by
  rw [coerce_questions]
  have h8 : (questionsBase x).length ≤ 8 := stringArray8_length_le x _
  by_cases h : (questionsBase x).length < 3
  · simp only [h, if_pos, List.length_take, List.length_append, cannedQuestions_length]
    omega
  · simp only [h, if_neg, not_false_iff]
    omega

theorem lensScore_bounds (v : Option Json) : 0 ≤ lensScore v ∧ lensScore v ≤ 100 := by
  unfold lensScore
  rcases numOrFifty (jsToNumberO v) with _ | _ | _ | q <;>
    simp only [clampedScore, clamp] <;> norm_num

theorem coerce_meets_bounds (v : Json) :
    (coerce v).vehicle_title.length ≤ 120 ∧ 0 ≤ (coerce v).lens_score ∧
      (coerce v).lens_score ≤ 100 ∧ (coerce v).summary.length ≤ 500 ∧
      (coerce v).market_value_estimate.length ≤ 80 ∧ (coerce v).red_flags.length ≤ 8 ∧
      3 ≤ (coerce v).questions_to_ask.length ∧ (coerce v).questions_to_ask.length ≤ 8 := by
  refine ⟨?ta, ?tb, ?tc, ?td, ?te, ?tf, ?tg, ?th⟩
  case ta =>
    rw [coerce_vehicle_title]
    exact textField_length_le v _ _ _
  case tb =>
    rw [coerce_lens_score]
    exact (lensScore_bounds _).1
  case tc =>
    rw [coerce_lens_score]
    exact (lensScore_bounds _).2
  case td =>
    rw [coerce_summary]
    exact textField_length_le v _ _ _
  case te =>
    rw [coerce_market]
    exact textField_length_le v _ _ _
  case tf =>
    rw [coerce_red_flags]
    exact stringArray8_length_le v _
  case tg => exact (coerce_questions_length v).1
  case th => exact (coerce_questions_length v).2

theorem extractJson_parse (t : List Char) (v : Json) (h : parseJson t = some v) :
    extractJson t = some v := by
  cases t with
  | nil => rw [parseJson_nil] at h; exact Option.noConfusion h
  | cons c r => simp [extractJson, h]

theorem jsGet_nonObj (v : Json) (k : List Char) (h : v.isObj = false) :
    jsGet v k = none := by
  cases v <;> simp_all [Json.isObj, jsGet]

theorem coerce_nonObj (v : Json) (h : v.isObj = false) : coerce v = defaultReport := by
  cases v <;> first
    | rfl
    | simp [Json.isObj] at h

theorem jsGetChecked_eq (v : Json) (k : List Char) (h : v ≠ .null) :
    jsGetChecked v k = some (jsGet v k) := by
  cases v <;> simp_all [jsGetChecked, jsGet]

theorem jsOrStr_ne_null (o : Option Json) (d : List Char) : jsOrStr o d ≠ .null := by
  rcases o with _ | v
  · simp [jsOrStr]
  · simp only [jsOrStr]
    by_cases ht : jsTruthy v = true
    · rw [if_pos ht]
      intro he
      subst he
      simp [jsTruthy] at ht
    · rw [if_neg ht]
      simp

theorem toStringChecked_of_ne_null (v : Json) (h : v ≠ .null) :
    toStringChecked v = some (jsStringOf v) := by
  cases v <;> simp_all [toStringChecked]

theorem textFieldChecked_eq (x : Json) (k d : List Char) (n : Nat) (h : x ≠ .null) :
    textFieldChecked x k d n = some (textField x k d n) := by
  unfold textFieldChecked textField
  rw [jsGetChecked_eq x k h]
  simp [toStringChecked_of_ne_null _ (jsOrStr_ne_null _ _)]

theorem stringArray8Checked_eq (x : Json) (k : List Char) (h : x ≠ .null) :
    stringArray8Checked x k = some (stringArray8 x k) := by
  unfold stringArray8Checked stringArray8
  rw [jsGetChecked_eq x k h]
  simp

theorem coerceChecked_eq (v : Json) (h : jsTruthy v = true) :
    coerceChecked v = some (coerce v) := by
  have hn : v ≠ .null := by
    intro he
    subst he
    simp [jsTruthy] at h
  unfold coerceChecked
  rw [textFieldChecked_eq _ _ _ _ hn, jsGetChecked_eq _ _ hn,
    textFieldChecked_eq _ _ _ _ hn, textFieldChecked_eq _ _ _ _ hn,
    stringArray8Checked_eq _ _ hn, stringArray8Checked_eq _ _ hn]
  simp [coerce, questionsBase, lensScore]

/-! ## Claim C1 -/

/-- C1: `coerce` is total — on every truthy extracted candidate the checked
replay of the `cleaned` block (with the JS throw-points made explicit) agrees
with the total function `coerce`, and the post-gateway pipeline can never
produce the coercion-failure outcome. -/
theorem C1_coercion_never_fails (v : Json) (raw : List Char) :
    (jsTruthy v = true → coerceChecked v = some (coerce v)) ∧
      normalizeChecked raw ≠ .coercionFailure := by
  constructor
  · exact fun h => coerceChecked_eq v h
  · unfold normalizeChecked
    rcases he : extractJson raw with _ | rpt
    · simp
    · cases ht : jsTruthy rpt
      · simp [ht]
      · simp [ht, coerceChecked_eq rpt ht]

/-- Witness for C1 at a concrete candidate and raw text. -/
theorem C1_coercion_never_fails_witness :
    coerceChecked (.obj []) = some (coerce (.obj [])) ∧
      normalizeChecked "hello".toList ≠ .coercionFailure :=
  ⟨(C1_coercion_never_fails (.obj []) "hello".toList).1 rfl,
   (C1_coercion_never_fails (.obj []) "hello".toList).2⟩

/-! ## Claim C3 -/

/-- C3 counterexample: a numeric `0` lens_score is coerced to `50`, not `0`
(`Number(0) || 50` takes the default), and a fractional score passes through
unrounded (`25/2` has denominator 2, so the result is not integer-valued). -/
theorem C3_lens_score_counterexample :
    (coerce (.obj [("lens_score".toList, .num 0)])).lens_score = 50 ∧
      (coerce (.obj [("lens_score".toList, .num (mkRat 25 2))])).lens_score = mkRat 25 2 ∧
      (mkRat 25 2).den = 2 := by decide

/-- C3 (amended): `lens_score` is the field coerced to a number and clamped to
`[0,100]` when that coercion yields a finite NONZERO number; it is `50` when
the coercion yields `NaN` or `0` (absence, null, non-numeric text, and numeric
zero alike, since `Number(x) || 50` treats 0 as missing); `±Infinity` clamp to
`100`/`0`; the result always lies in `[0,100]` but need not be
integer-valued. -/
theorem C3_lens_score_characterization (x : Json) :
    (∀ q : ℚ, jsToNumberO (jsGet x "lens_score".toList) = .finite q → q ≠ 0 →
        (coerce x).lens_score = clamp q 0 100) ∧
      (jsToNumberO (jsGet x "lens_score".toList) = .nan → (coerce x).lens_score = 50) ∧
      (jsToNumberO (jsGet x "lens_score".toList) = .finite 0 → (coerce x).lens_score = 50) ∧
      (jsToNumberO (jsGet x "lens_score".toList) = .posInf → (coerce x).lens_score = 100) ∧
      (jsToNumberO (jsGet x "lens_score".toList) = .negInf → (coerce x).lens_score = 0) ∧
      0 ≤ (coerce x).lens_score ∧ (coerce x).lens_score ≤ 100 := by
  simp only [coerce_lens_score]
  refine ⟨?_, ?_, ?_, ?_, ?_, lensScore_bounds _⟩
  · intro q hq hq0
    unfold lensScore
    rw [hq]
    simp [numOrFifty, hq0, clampedScore]
  · intro hq
    unfold lensScore
    rw [hq]
    decide
  · intro hq
    unfold lensScore
    rw [hq]
    decide
  · intro hq
    unfold lensScore
    rw [hq]
    decide
  · intro hq
    unfold lensScore
    rw [hq]
    decide

/-- Witness for C3 (amended) at `lens_score = -10` (clamps to 0). -/
theorem C3_lens_score_characterization_witness :
    (coerce (.obj [("lens_score".toList, .num (-10))])).lens_score = clamp (-10) 0 100 ∧
      0 ≤ (coerce (.obj [("lens_score".toList, .num (-10))])).lens_score :=
  ⟨(C3_lens_score_characterization _).1 (-10) (by decide) (by decide),
   (C3_lens_score_characterization (.obj [("lens_score".toList, .num (-10))])).2.2.2.2.2.1⟩

/-! ## Claim C5 -/

/-- C5: when `extractJson` recovers nothing, `normalize` answers the
extraction-failure outcome whose preview is the raw text truncated to 2000
characters — the full text whenever it is at most 2000 characters long. -/
theorem C5_extraction_failure_preview (raw : List Char) (h : extractJson raw = none) :
    normalize raw = .extractionFailure (raw.take 2000) ∧
      (raw.length ≤ 2000 → raw.take 2000 = raw) := by
  constructor
  · unfold normalize
    rw [h]
  · exact fun hl => List.take_of_length_le hl

/-- Witness for C5 at the spec's scenario text. -/
theorem C5_extraction_failure_preview_witness :
    normalize "No JSON here at all.".toList =
      .extractionFailure "No JSON here at all.".toList := by
  have h := C5_extraction_failure_preview "No JSON here at all.".toList (by decide)
  have h1 := h.1
  rw [h.2 (by decide)] at h1
  exact h1

/-! ## Claim C6 -/

/-- C6: `questions_to_ask` always has between 3 and 8 entries, and whenever
fewer than 3 survive the stringify-and-truncate step the three canned
questions are appended in fixed order (no deduplication) before truncating to
8 again. -/
theorem C6_questions_backfill (x : Json) :
    (3 ≤ (coerce x).questions_to_ask.length ∧ (coerce x).questions_to_ask.length ≤ 8) ∧
      ((questionsBase x).length < 3 →
        (coerce x).questions_to_ask = (questionsBase x ++ cannedQuestions).take 8) := by
  refine ⟨coerce_questions_length x, ?_⟩
  intro h
  rw [coerce_questions]
  simp [h]

/-- Witness for C6 at the empty candidate (0 questions → the 3 canned ones). -/
theorem C6_questions_backfill_witness :
    (3 ≤ (coerce (.obj [])).questions_to_ask.length ∧
        (coerce (.obj [])).questions_to_ask.length ≤ 8) ∧
      (coerce (.obj [])).questions_to_ask =
        (questionsBase (.obj []) ++ cannedQuestions).take 8 :=
  ⟨(C6_questions_backfill (.obj [])).1, (C6_questions_backfill (.obj [])).2 (by decide)⟩

/-! ## Claim C10 -/

/-- C10: a raw text whose direct parse yields a truthy non-object value (a
non-empty array, nonzero number, `true`, or non-empty string) is NOT an
extraction failure: `coerce` runs on it and, since every named property of a
non-object is `undefined`, produces the all-defaults report; a falsy parse
result (`null`, `0`, `false`, `""`) is reported as an extraction failure. -/
theorem C10_nonobject_candidates (raw : List Char) (v : Json)
    (hp : parseJson raw = some v) (ho : v.isObj = false) :
    (jsTruthy v = true → normalize raw = .report defaultReport) ∧
      (jsTruthy v = false → normalize raw = .extractionFailure (raw.take 2000)) := by
  have he := extractJson_parse raw v hp
  constructor
  · intro ht
    unfold normalize
    rw [he]
    simp [ht, coerce_nonObj v ho]
  · intro hf
    unfold normalize
    rw [he]
    simp [hf]

/-- Witness for C10: `[1]` (truthy array) → all-defaults report; `0` (falsy
number) → extraction failure. -/
theorem C10_nonobject_candidates_witness :
    normalize "[1]".toList = .report defaultReport ∧
      normalize "0".toList = .extractionFailure ("0".toList.take 2000) :=
  ⟨(C10_nonobject_candidates "[1]".toList (.arr [.num 1]) (by decide) (by decide)).1
     (by decide),
   (C10_nonobject_candidates "0".toList (.num 0) (by decide) (by decide)).2 (by decide)⟩

/-! ## Claim C7 -/

theorem textField_of_falsy (x : Json) (k d : List Char) (n : Nat)
    (hf : jsTruthyO (jsGet x k) = false) : textField x k d n = d.take n := by
  unfold textField
  rcases hg : jsGet x k with _ | v
  · simp [jsOrStr, jsStringOf_str]
  · rw [hg] at hf
    simp only [jsTruthyO] at hf
    simp [jsOrStr, hf, jsStringOf_str]

theorem textField_of_truthy (x : Json) (k d : List Char) (n : Nat) (v : Json)
    (hg : jsGet x k = some v) (ht : jsTruthy v = true) :
    textField x k d n = (jsStringOf v).take n := by
  unfold textField
  rw [hg]
  simp [jsOrStr, ht]

/-- C7 counterexample: an empty array is truthy, but `String([])` is `""`, so
`vehicle_title` comes out empty — the "non-empty" invariant fails. -/
theorem C7_vehicle_title_counterexample :
    jsTruthy (Json.arr []) = true ∧
      (coerce (.obj [("vehicle_title".toList, .arr [])])).vehicle_title = [] := by decide

/-- C7 (amended): `vehicle_title` is the field's value converted to text when
present and truthy, else the literal `"Unknown Vehicle"`, then truncated to
120 characters; its length is at most 120, and it is non-empty in every case
except when the field holds a truthy value whose string conversion is empty
(such as an empty array). -/
theorem C7_vehicle_title_shape (x : Json) :
    (coerce x).vehicle_title.length ≤ 120 ∧
      (jsTruthyO (jsGet x "vehicle_title".toList) = false →
        (coerce x).vehicle_title = "Unknown Vehicle".toList) ∧
      (∀ v, jsGet x "vehicle_title".toList = some v → jsTruthy v = true →
        (coerce x).vehicle_title = (jsStringOf v).take 120) ∧
      (∀ v, jsGet x "vehicle_title".toList = some v → jsTruthy v = true →
        jsStringOf v ≠ [] → (coerce x).vehicle_title ≠ []) := by
  rw [coerce_vehicle_title]
  refine ⟨textField_length_le x _ _ _, ?_, ?_, ?_⟩
  · intro hf
    rw [textField_of_falsy x _ _ _ hf]
    decide
  · intro v hg ht
    exact textField_of_truthy x _ _ _ v hg ht
  · intro v hg ht hne
    rw [textField_of_truthy x _ _ _ v hg ht]
    intro hcontra
    rcases List.take_eq_nil_iff.mp hcontra with h0 | h0
    · exact Nat.noConfusion h0
    · exact hne h0

/-- Witness for C7 (amended) at a concrete titled candidate. -/
theorem C7_vehicle_title_shape_witness :
    (coerce (.obj [("vehicle_title".toList, .str "2019 Toyota Hilux".toList)])).vehicle_title =
        (jsStringOf (.str "2019 Toyota Hilux".toList)).take 120 ∧
      (coerce (.obj [("vehicle_title".toList,
          .str "2019 Toyota Hilux".toList)])).vehicle_title ≠ [] :=
  ⟨(C7_vehicle_title_shape (.obj [("vehicle_title".toList,
       .str "2019 Toyota Hilux".toList)])).2.2.1
     (.str "2019 Toyota Hilux".toList) (by decide) (by decide),
   (C7_vehicle_title_shape (.obj [("vehicle_title".toList,
       .str "2019 Toyota Hilux".toList)])).2.2.2
     (.str "2019 Toyota Hilux".toList) (by decide) (by decide) (by decide)⟩

/-! ## Claim C2 -/

theorem jsGet_toJsonReport_vt (r : ListingReport) :
    jsGet (toJsonReport r) "vehicle_title".toList = some (.str r.vehicle_title) := rfl

theorem jsGet_toJsonReport_ls (r : ListingReport) :
    jsGet (toJsonReport r) "lens_score".toList = some (.num r.lens_score) := rfl

theorem jsGet_toJsonReport_sm (r : ListingReport) :
    jsGet (toJsonReport r) "summary".toList = some (.str r.summary) := rfl

theorem jsGet_toJsonReport_mv (r : ListingReport) :
    jsGet (toJsonReport r) "market_value_estimate".toList =
      some (.str r.market_value_estimate) := rfl

theorem jsGet_toJsonReport_rf (r : ListingReport) :
    jsGet (toJsonReport r) "red_flags".toList = some (.arr (r.red_flags.map .str)) := rfl

theorem jsGet_toJsonReport_qs (r : ListingReport) :
    jsGet (toJsonReport r) "questions_to_ask".toList =
      some (.arr (r.questions_to_ask.map .str)) := rfl

theorem jsTruthy_str_of_ne (s : List Char) (h : s ≠ []) : jsTruthy (.str s) = true := by
  cases s with
  | nil => exact absurd rfl h
  | cons a l => rfl

/-- Mapping `String` over a list of (JS) strings is the identity. -/
theorem map_jsStringOf_str (l : List (List Char)) :
    (l.map Json.str).map jsStringOf = l := by
  induction l with
  | nil => rfl
  | cons a t ih => simp [jsStringOf_str, ih]

/-- Re-coercing an already-cleaned record returns it unchanged, provided its
score is nonzero and its text fields non-empty (the cases where the `||`
defaults would fire again). -/
theorem coerce_toJsonReport (r : ListingReport)
    (hvt : r.vehicle_title.length ≤ 120) (hvtne : r.vehicle_title ≠ [])
    (hls0 : r.lens_score ≠ 0) (hls1 : 0 ≤ r.lens_score) (hls2 : r.lens_score ≤ 100)
    (hsm : r.summary.length ≤ 500) (hsmne : r.summary ≠ [])
    (hmv : r.market_value_estimate.length ≤ 80) (hmvne : r.market_value_estimate ≠ [])
    (hrf : r.red_flags.length ≤ 8)
    (hq3 : 3 ≤ r.questions_to_ask.length) (hq8 : r.questions_to_ask.length ≤ 8) :
    coerce (toJsonReport r) = r := by
  have hqs : stringArray8 (toJsonReport r) "questions_to_ask".toList =
      r.questions_to_ask := by
    show ((r.questions_to_ask.map Json.str).map jsStringOf).take 8 = r.questions_to_ask
    rw [map_jsStringOf_str]
    exact List.take_of_length_le hq8
  apply ListingReport.ext
  · rw [coerce_vehicle_title,
      textField_of_truthy _ _ _ _ _ (jsGet_toJsonReport_vt r) (jsTruthy_str_of_ne _ hvtne),
      jsStringOf_str]
    exact List.take_of_length_le hvt
  · rw [coerce_lens_score, jsGet_toJsonReport_ls]
    show clampedScore (if r.lens_score = 0 then JsNum.finite 50
      else JsNum.finite r.lens_score) = r.lens_score
    rw [if_neg hls0]
    show clamp r.lens_score 0 100 = r.lens_score
    unfold clamp
    rw [min_eq_right hls2, max_eq_right hls1]
  · rw [coerce_summary,
      textField_of_truthy _ _ _ _ _ (jsGet_toJsonReport_sm r) (jsTruthy_str_of_ne _ hsmne),
      jsStringOf_str]
    exact List.take_of_length_le hsm
  · rw [coerce_market,
      textField_of_truthy _ _ _ _ _ (jsGet_toJsonReport_mv r) (jsTruthy_str_of_ne _ hmvne),
      jsStringOf_str]
    exact List.take_of_length_le hmv
  · rw [coerce_red_flags]
    show ((r.red_flags.map Json.str).map jsStringOf).take 8 = r.red_flags
    rw [map_jsStringOf_str]
    exact List.take_of_length_le hrf
  · rw [coerce_questions]
    unfold questionsBase
    rw [hqs, if_neg (by omega)]

/-- C2 counterexample: `coerce` is not idempotent — a `lens_score` of `-10`
clamps to `0` on the first pass, and the second pass's `0 || 50` default turns
that `0` into `50`. -/
theorem C2_idempotence_counterexample :
    coerce (toJsonReport (coerce (.obj [("lens_score".toList, .num (-10))]))) ≠
      coerce (.obj [("lens_score".toList, .num (-10))]) := by decide

/-- C2 (amended): `coerce(coerce(x)) = coerce(x)` for every candidate whose
first-pass output has a nonzero `lens_score` and non-empty `vehicle_title`,
`summary`, and `market_value_estimate`; on the remaining outputs (a clamped
score of 0, or a truthy field that stringified to the empty text) the second
pass re-fires the `|| default` fallbacks, so idempotence fails. -/
theorem C2_idempotence_conditional (x : Json)
    (h0 : (coerce x).lens_score ≠ 0)
    (h1 : (coerce x).vehicle_title ≠ [])
    (h2 : (coerce x).summary ≠ [])
    (h3 : (coerce x).market_value_estimate ≠ []) :
    coerce (toJsonReport (coerce x)) = coerce x := by
  apply coerce_toJsonReport
  · rw [coerce_vehicle_title]
    exact textField_length_le x _ _ _
  · exact h1
  · exact h0
  · rw [coerce_lens_score]
    exact (lensScore_bounds _).1
  · rw [coerce_lens_score]
    exact (lensScore_bounds _).2
  · rw [coerce_summary]
    exact textField_length_le x _ _ _
  · exact h2
  · rw [coerce_market]
    exact textField_length_le x _ _ _
  · exact h3
  · rw [coerce_red_flags]
    exact stringArray8_length_le x _
  · exact (coerce_questions_length x).1
  · exact (coerce_questions_length x).2

/-- Witness for C2 (amended) at the empty candidate. -/
theorem C2_idempotence_conditional_witness :
    coerce (toJsonReport (coerce (.obj []))) = coerce (.obj []) :=
  C2_idempotence_conditional (.obj []) (by decide) (by decide) (by decide) (by decide)

/-! ## Claim C4 -/

theorem firstIdxOf_cons_self (c : Char) (l : List Char) :
    firstIdxOf c (c :: l) = some 0 := by
  simp [firstIdxOf]

theorem firstIdxOf_append_of_not_mem (c : Char) (p l : List Char) (hp : c ∉ p) :
    firstIdxOf c (p ++ l) = (firstIdxOf c l).map (· + p.length) := by
  induction p with
  | nil =>
    simp only [List.nil_append, List.length_nil]
    cases firstIdxOf c l <;> simp
  | cons a t ih =>
    have ha : ¬(a = c) := fun he => hp (he ▸ List.mem_cons_self a t)
    have ht : c ∉ t := fun hm => hp (List.mem_cons_of_mem a hm)
    show firstIdxOf c (a :: (t ++ l)) = (firstIdxOf c l).map (· + (a :: t).length)
    rw [show firstIdxOf c (a :: (t ++ l)) =
        if a = c then some 0 else (firstIdxOf c (t ++ l)).map (· + 1) from rfl,
      if_neg ha, ih ht]
    cases firstIdxOf c l with
    | none => rfl
    | some i =>
      simp only [Option.map_some', List.length_cons, Option.some.injEq]
      omega

/-- The brace-span recovery: when the direct parse of `p ++ j ++ s` fails,
`p` holds no `{`, `s` holds no `}`, and `j` is a parseable JSON text that
starts with `{` and ends with `}`, the slice from the first `{` to the last
`}` is exactly `j`, so `extractJson` returns its parse. -/
theorem extractJson_wrapped (p j s : List Char) (v : Json)
    (hfail : parseJson (p ++ j ++ s) = none)
    (hp : '{' ∉ p) (hs : '}' ∉ s)
    (hhead : j.head? = some '{') (hlast : j.getLast? = some '}')
    (hj : parseJson j = some v) :
    extractJson (p ++ j ++ s) = some v := by
  obtain ⟨j1, rfl⟩ : ∃ j1, j = '{' :: j1 := by
    cases j with
    | nil => exact Option.noConfusion hhead
    | cons a t =>
      have : a = '{' := Option.some.inj hhead
      exact ⟨t, by rw [this]⟩
  have hlen2 : 2 ≤ ('{' :: j1).length := by
    cases j1 with
    | nil => simp [List.getLast?] at hlast
    | cons b t2 => simp [List.length_cons]
  have hfi : firstIdxOf '{' (p ++ ('{' :: j1) ++ s) = some p.length := by
    rw [List.append_assoc, firstIdxOf_append_of_not_mem '{' p _ hp,
      show ('{' :: j1) ++ s = '{' :: (j1 ++ s) from rfl, firstIdxOf_cons_self]
    simp
  obtain ⟨jr, hjr⟩ : ∃ jr, ('{' :: j1).reverse = '}' :: jr := by
    have hrev : ('{' :: j1).reverse.head? = some '}' := by
      rw [List.head?_reverse]
      exact hlast
    cases hrevl : ('{' :: j1).reverse with
    | nil => rw [hrevl] at hrev; exact Option.noConfusion hrev
    | cons b t2 =>
      rw [hrevl] at hrev
      exact ⟨t2, by rw [Option.some.inj hrev]⟩
  have hfi2 : firstIdxOf '}' ((p ++ ('{' :: j1) ++ s).reverse) = some s.length := by
    rw [List.reverse_append, List.reverse_append,
      firstIdxOf_append_of_not_mem '}' s.reverse _ (by rw [List.mem_reverse]; exact hs),
      hjr]
    rw [show ('}' :: jr) ++ p.reverse = '}' :: (jr ++ p.reverse) from rfl,
      firstIdxOf_cons_self]
    simp
  have hla : lastIdxOf '}' (p ++ ('{' :: j1) ++ s) =
      some (p.length + ('{' :: j1).length - 1) := by
    unfold lastIdxOf
    rw [hfi2]
    simp only [Option.map_some', Option.some.injEq, List.length_append,
      List.length_cons]
    omega
  have hemp : (p ++ ('{' :: j1) ++ s).isEmpty = false := by simp
  have hlt : p.length < p.length + ('{' :: j1).length - 1 := by
    simp only [List.length_cons] at hlen2 ⊢
    omega
  have hdrop : (p ++ ('{' :: j1) ++ s).drop p.length = ('{' :: j1) ++ s := by
    rw [List.append_assoc]
    exact List.drop_left p _
  have htake : (('{' :: j1) ++ s).take (p.length + ('{' :: j1).length - 1 + 1 - p.length) =
      '{' :: j1 := by
    rw [show p.length + ('{' :: j1).length - 1 + 1 - p.length = ('{' :: j1).length by
      simp only [List.length_cons]; omega]
    exact List.take_left _ _
  simp only [extractJson, hemp, Bool.false_eq_true, if_false, hfail, hfi, hla]
  rw [if_pos hlt, hdrop, htake]
  exact hj

/-- C4 counterexample: `{"a":1} }` holds the valid object `{"a":1}` strictly
between its first `{` and last `}`, but the direct parse fails and the
first-`{`-to-last-`}` slice (the whole text) also fails to parse, so
`extractJson` recovers nothing. -/
theorem C4_extraction_counterexample :
    extractJson "\x7b\"a\":1\x7d \x7d".toList = none ∧
      parseJson "\x7b\"a\":1\x7d".toList = some (.obj [("a".toList, .num 1)]) ∧
      firstIdxOf '{' "\x7b\"a\":1\x7d \x7d".toList = some 0 ∧
      lastIdxOf '}' "\x7b\"a\":1\x7d \x7d".toList = some 8 := by decide

/-- C4 (amended): `extract` recovers a JSON value in exactly two cases: when
the whole text parses directly, and when the slice from the first `{` to the
last `}` is itself a valid JSON text — equivalently, for any prose wrapping
`p ++ j ++ s` of a parseable `{...}` text `j` where the prefix holds no `{`
and the suffix no `}`.  A valid object lying strictly inside the
first-`{`-to-last-`}` span is not recovered. -/
theorem C4_extraction_recovery :
    (∀ t v, parseJson t = some v → extractJson t = some v) ∧
      (∀ p j s v, parseJson (p ++ j ++ s) = none → '{' ∉ p → '}' ∉ s →
        j.head? = some '{' → j.getLast? = some '}' → parseJson j = some v →
        extractJson (p ++ j ++ s) = some v) :=
  ⟨extractJson_parse, extractJson_wrapped⟩

/-- Witness for C4 (amended) at a direct parse and at the spec's prose-wrapped
scenario. -/
theorem C4_extraction_recovery_witness :
    extractJson "\x7b\"a\": 2\x7d".toList = some (.obj [("a".toList, .num 2)]) ∧
      extractJson ("Here you go: ".toList ++ "\x7b\"lens_score\": \"N/A\"\x7d".toList ++
          " Thanks!".toList) =
        some (.obj [("lens_score".toList, .str "N/A".toList)]) :=
  ⟨C4_extraction_recovery.1 "\x7b\"a\": 2\x7d".toList (.obj [("a".toList, .num 2)]) rfl,
   C4_extraction_recovery.2 "Here you go: ".toList "\x7b\"lens_score\": \"N/A\"\x7d".toList
     " Thanks!".toList (.obj [("lens_score".toList, .str "N/A".toList)])
     rfl (by decide) (by decide) rfl rfl rfl⟩

/-! ## Claim C8 -/

theorem firstImageError_none (imgs : List Json) (h : firstImageError imgs = none) :
    ∀ i ∈ imgs, ∃ s, i = .str s ∧ s.length ≤ 12000000 := by
  induction imgs with
  | nil => simp
  | cons a rest ih =>
    cases a with
    | str s =>
      by_cases hl : s.length > 12000000
      · rw [firstImageError, if_pos hl] at h
        exact Option.noConfusion h
      · rw [firstImageError, if_neg hl] at h
        intro i hi
        rcases List.mem_cons.mp hi with rfl | hi'
        · exact ⟨s, rfl, by omega⟩
        · exact ih h i hi'
    | null => exact absurd h (by simp [firstImageError])
    | bool b => exact absurd h (by simp [firstImageError])
    | num q => exact absurd h (by simp [firstImageError])
    | arr l => exact absurd h (by simp [firstImageError])
    | obj m => exact absurd h (by simp [firstImageError])

/-- C8 counterexample: the Firebase callable variant (also in this repository)
performs none of these checks — a request carrying 5 images reaches the
provider call. -/
theorem C8_firebase_counterexample :
    firebasePreGateway (.obj [("images".toList,
        .arr [.str "a".toList, .str "b".toList, .str "c".toList, .str "d".toList,
          .str "e".toList])]) =
      .callGateway [.str "a".toList, .str "b".toList, .str "c".toList, .str "d".toList,
        .str "e".toList] := by decide

/-- C8 (amended): in the multi-image Netlify handler the validation block runs
before the provider call, and the call is reached only when `imagesBase64` is
an array of 1 to 4 strings each at most 12,000,000 characters long — so an
empty, oversized (including 5-image), non-string-bearing, or too-large request
is always rejected first.  The Firebase callable variant performs no such
validation. -/
theorem C8_multi_validation (j : Option Json) (imgs : List Json)
    (h : multiValidate j = .callGateway imgs) :
    j = some (.arr imgs) ∧ 1 ≤ imgs.length ∧ imgs.length ≤ 4 ∧
      ∀ i ∈ imgs, ∃ s, i = .str s ∧ s.length ≤ 12000000 := by
  rcases j with _ | v
  · exact absurd h (by simp [multiValidate])
  cases v with
  | arr l =>
    by_cases h0 : l.length = 0
    · rw [multiValidate, if_pos h0] at h
      exact MultiStep.noConfusion h
    · by_cases h4 : l.length > 4
      · rw [multiValidate, if_neg h0, if_pos h4] at h
        exact MultiStep.noConfusion h
      · rw [multiValidate, if_neg h0, if_neg h4] at h
        rcases he : firstImageError l with _ | p
        · rw [he] at h
          have hl : l = imgs := by
            have := MultiStep.callGateway.inj h
            exact this
          subst hl
          exact ⟨rfl, by omega, by omega, firstImageError_none l he⟩
        · rw [he] at h
          exact MultiStep.noConfusion h
  | null => exact absurd h (by simp [multiValidate])
  | bool b => exact absurd h (by simp [multiValidate])
  | num q => exact absurd h (by simp [multiValidate])
  | str s => exact absurd h (by simp [multiValidate])
  | obj m => exact absurd h (by simp [multiValidate])

/-- Witness for C8 (amended) at a valid single-image request. -/
theorem C8_multi_validation_witness :
    some (Json.arr [.str "abc".toList]) = some (Json.arr [.str "abc".toList]) ∧
      1 ≤ [Json.str "abc".toList].length ∧ [Json.str "abc".toList].length ≤ 4 ∧
      ∀ i ∈ [Json.str "abc".toList], ∃ s, i = .str s ∧ s.length ≤ 12000000 :=
  C8_multi_validation (some (.arr [.str "abc".toList])) [.str "abc".toList] (by decide)

/-! ## Claim C9 -/

/-- C9 counterexample: the Firebase variant surfaces `JSON.parse` output with
no validation at all — a reply `{"lol": 1}` is returned as a success although
it has none of the `ListingReport` fields (`vehicle_title` is absent); and
even the Netlify normalization can surface a report violating the §3 table
(empty `vehicle_title` from a truthy-but-empty-stringifying field). -/
theorem C9_no_partial_success_counterexample :
    firebaseNormalize "```json\n\x7b\"lol\":1\x7d\n```".toList =
        .success (.obj [("lol".toList, .num 1)]) ∧
      jsGet (.obj [("lol".toList, .num 1)]) "vehicle_title".toList = none ∧
      normalize "\x7b\"vehicle_title\": []\x7d".toList =
        .report (coerce (.obj [("vehicle_title".toList, .arr [])])) ∧
      (coerce (.obj [("vehicle_title".toList, .arr [])])).vehicle_title = [] := by decide

/-- C9 (amended): in the Netlify handlers every successful response carries
exactly a `coerce` output, which satisfies the §3 bounds — title ≤ 120, score
in [0,100], summary ≤ 500, market estimate ≤ 80, red flags ≤ 8, questions in
[3,8].  The non-emptiness of `vehicle_title` and integrality of `lens_score`
can fail (see C3/C7), and the Firebase variant surfaces parsed model JSON
without validation. -/
theorem C9_success_shape (raw : List Char) (r : ListingReport)
    (h : normalize raw = .report r) :
    (∃ v, extractJson raw = some v ∧ jsTruthy v = true ∧ r = coerce v) ∧
      r.vehicle_title.length ≤ 120 ∧ 0 ≤ r.lens_score ∧ r.lens_score ≤ 100 ∧
      r.summary.length ≤ 500 ∧ r.market_value_estimate.length ≤ 80 ∧
      r.red_flags.length ≤ 8 ∧ 3 ≤ r.questions_to_ask.length ∧
      r.questions_to_ask.length ≤ 8 := by
  unfold normalize at h
  rcases he : extractJson raw with _ | v
  · rw [he] at h
    exact NormOutcome.noConfusion h
  · rw [he] at h
    have h' : (if jsTruthy v = true then NormOutcome.report (coerce v)
        else NormOutcome.extractionFailure (raw.take 2000)) = NormOutcome.report r := h
    by_cases ht : jsTruthy v = true
    case neg =>
      rw [if_neg ht] at h'
      exact NormOutcome.noConfusion h'
    case pos =>
      rw [if_pos ht] at h'
      have hr : coerce v = r := NormOutcome.report.inj h'
      subst hr
      exact ⟨⟨v, rfl, ht, rfl⟩, coerce_meets_bounds v⟩

/-- Witness for C9 (amended) at the spec's prose-wrapped scenario. -/
theorem C9_success_shape_witness :
    (∃ v, extractJson "Here you go: \x7b\"lens_score\": \"N/A\"\x7d Thanks!".toList = some v ∧
        jsTruthy v = true ∧
        coerce (.obj [("lens_score".toList, .str "N/A".toList)]) = coerce v) ∧
      (coerce (.obj [("lens_score".toList,
          .str "N/A".toList)])).vehicle_title.length ≤ 120 ∧
      0 ≤ (coerce (.obj [("lens_score".toList, .str "N/A".toList)])).lens_score ∧
      (coerce (.obj [("lens_score".toList, .str "N/A".toList)])).lens_score ≤ 100 ∧
      (coerce (.obj [("lens_score".toList, .str "N/A".toList)])).summary.length ≤ 500 ∧
      (coerce (.obj [("lens_score".toList,
          .str "N/A".toList)])).market_value_estimate.length ≤ 80 ∧
      (coerce (.obj [("lens_score".toList, .str "N/A".toList)])).red_flags.length ≤ 8 ∧
      3 ≤ (coerce (.obj [("lens_score".toList,
          .str "N/A".toList)])).questions_to_ask.length ∧
      (coerce (.obj [("lens_score".toList,
          .str "N/A".toList)])).questions_to_ask.length ≤ 8 :=
  C9_success_shape "Here you go: \x7b\"lens_score\": \"N/A\"\x7d Thanks!".toList
    (coerce (.obj [("lens_score".toList, .str "N/A".toList)])) (by decide)

end ListingLens
